import Mathlib

/-!
Verification of the statistics core of `src/app.py` (lotto draw analyzer).

The Python functions `analyze_frequency`, `analyze_combinations`,
`analyze_by_year`, `calculate_additional_stats`, `find_hot_cold_numbers`
and `find_patterns` are shallowly embedded below.  Draw records are the
dictionaries produced by `parse_html_data`: a date (modelled as a `Nat`,
only used as a sortable key), a year (`Int`) and a list of numbers.

Python `collections.Counter` over a list is modelled as the association
list of (key, multiplicity) pairs with keys in first-occurrence order,
which is exactly the iteration order of a `Counter` built by repeated
`+= 1` updates.

`pandas.DataFrame.sort_values(by=k)` is modelled as a stable sort on the
single key `k` (`List.insertionSort` on the key's `≤`, which is stable).
For `ascending=False` pandas computes the ascending argsort and reverses
the resulting index order (`nargsort`), so the descending sort is modelled
as the reverse of the stable ascending sort.  Neither direction applies
any secondary key: the source sorts on exactly one column.

Python float arithmetic (averages, expected frequencies, deviations) is
modelled over `ℚ`; every concrete value appearing in the claims is exactly
representable in binary floating point, so no rounding questions arise.
-/

namespace Lotto

/-- One draw record as built by `parse_html_data`:
`{"date": date_str, "numbers": white_balls, "year": year}`. -/
structure Draw where
  date : Nat
  year : Int
  numbers : List Nat
deriving Repr, DecidableEq

/-- The module-level constant 7 (numbers per draw) in `app.py`. -/
def DRAW_SIZE : Nat := 7

/-- The module-level constant 50 (number pool 1..50) in `app.py`. -/
def POOL_SIZE : Nat := 50

/-- Distinct values of a list in first-occurrence order: the key order of a
Python `Counter` built by iterating over the list. -/
def firstDedup {α : Type} [DecidableEq α] : List α → List α
  | [] => []
  | a :: l => a :: (firstDedup l).filter (fun x => x ≠ a)

/-- Python `collections.Counter(l)` as an association list:
keys in first-occurrence order, each with its multiplicity in `l`. -/
def counterOf {α : Type} [DecidableEq α] (l : List α) : List (α × Nat) :=
  (firstDedup l).map (fun k => (k, l.count k))

/-- Comparison of two rows by a single sort key. -/
def keyLE {α β : Type} [LinearOrder β] (key : α → β) (a b : α) : Prop :=
  key a ≤ key b

instance {α β : Type} [LinearOrder β] (key : α → β) : DecidableRel (keyLE key) :=
  fun a b => inferInstanceAs (Decidable (key a ≤ key b))

instance {α β : Type} [LinearOrder β] (key : α → β) : IsTotal α (keyLE key) :=
  ⟨fun a b => le_total (key a) (key b)⟩

instance {α β : Type} [LinearOrder β] (key : α → β) : IsTrans α (keyLE key) :=
  ⟨fun _ _ _ hab hbc => le_trans hab hbc⟩

/-- Model of `DataFrame.sort_values(by=key)` (ascending): stable sort on the key. -/
def sortAscBy {α β : Type} [LinearOrder β] (key : α → β) (l : List α) : List α :=
  l.insertionSort (keyLE key)

/-- Model of `DataFrame.sort_values(by=key, ascending=False)`: pandas `nargsort`
reverses the ascending argsort, i.e. the reverse of the stable ascending
sort.  No secondary key is applied. -/
def sortDescBy {α β : Type} [LinearOrder β] (key : α → β) (l : List α) : List α :=
  (sortAscBy key l).reverse

/-- The concatenation `main_numbers` built by the loop in `analyze_frequency`. -/
def mainNumbers (draws : List Draw) : List Nat :=
  draws.flatMap (fun d => d.numbers)

/-- Model of `analyze_frequency(draws)["main"]`: the Counter of all drawn numbers as a
(number, frequency) table, sorted by frequency descending. -/
def analyze_frequency (draws : List Draw) : List (Nat × Nat) :=
  sortDescBy (fun p => p.2) (counterOf (mainNumbers draws))
/- ### `analyze_combinations` -/

/-- Model of `itertools.combinations(l, k)`: all `k`-element subsequences of `l`, in
lexicographic order of positions (combinations containing the head first). -/
def combinationsList {α : Type} : Nat → List α → List (List α)
  | 0, _ => [[]]
  | _ + 1, [] => []
  | k + 1, a :: l => ((combinationsList k l).map (fun t => a :: t)) ++ combinationsList (k + 1) l

/-- Model of `analyze_combinations(draws, combination_size)`: Counter over all
size-`k` combinations of each draw's ascending-sorted numbers, returned as a
(combination, frequency) table sorted by frequency descending.  The Python
code stringifies each tuple key with `str`; `str` is injective on integer
tuples, so the key is modelled as the tuple itself. -/
def analyze_combinations (draws : List Draw) (combination_size : Nat) :
    List (List Nat × Nat) :=
  sortDescBy (fun p => p.2)
    (counterOf (draws.flatMap
      (fun d => combinationsList combination_size (sortAscBy id d.numbers))))

/- ### `analyze_by_year` -/

/-- Model of `analyze_by_year(draws)`: group draws by the record's own `year` value
(`defaultdict` insertion order: first occurrence), then run
`analyze_frequency` on each group. -/
def analyze_by_year (draws : List Draw) : List (Int × List (Nat × Nat)) :=
  (firstDedup (draws.map (fun d => d.year))).map
    (fun y => (y, analyze_frequency (draws.filter (fun d => d.year = y))))

/- ### `calculate_additional_stats` -/

/-- Python `max` of a nonempty list (the source never applies it to `[]`). -/
def listMax : List Nat → Nat
  | [] => 0
  | a :: l => l.foldl max a

/-- Python `min` of a nonempty list (the source never applies it to `[]`). -/
def listMin : List Nat → Nat
  | [] => 0
  | a :: l => l.foldl min a

/-- The tally `sum(1 for num in draw["numbers"] if num % 2 == 1)`. -/
def oddCount (d : Draw) : Nat :=
  (d.numbers.filter (fun n => n % 2 = 1)).length

/-- The tally `sum(1 for num in draw["numbers"] if num > 25)`. -/
def highCount (d : Draw) : Nat :=
  (d.numbers.filter (fun n => 25 < n)).length

/-- The loop counting adjacent differences equal to 1 in a sorted list
(`if sorted_nums[i+1] - sorted_nums[i] == 1`); on the ascending-sorted input
the Python difference is never negative, so `Nat` subtraction agrees. -/
def consecCount : List Nat → Nat
  | a :: b :: rest => (if b - a = 1 then 1 else 0) + consecCount (b :: rest)
  | _ => 0

/-- Per-draw `consecutive` count: adjacent pairs differing by 1 in the
ascending-sorted numbers. -/
def consecutivePairs (d : Draw) : Nat :=
  consecCount (sortAscBy id d.numbers)

/-- The spread `max(draw["numbers"]) - min(draw["numbers"])`. -/
def drawRange (d : Draw) : Nat :=
  listMax d.numbers - listMin d.numbers

/-- The `stats` dictionary built by `calculate_additional_stats` when the
input is nonempty.  Each distribution is keyed by the numeric bucket value
(the Python label string, e.g. `"3 odd, 4 even"` for bucket 3, is a bijective
rendering of that value), with buckets sorted ascending as in the source. -/
structure DistStats where
  average_sum : ℚ
  min_sum : Nat
  max_sum : Nat
  odd_even_distribution : List (Nat × Nat)
  avg_odd_numbers : ℚ
  high_low_distribution : List (Nat × Nat)
  avg_high_numbers : ℚ
  consecutive_pairs_distribution : List (Nat × Nat)
  avg_consecutive_pairs : ℚ
  avg_range : ℚ
  min_range : Nat
  max_range : Nat
deriving Repr, DecidableEq

/-- Model of `calculate_additional_stats(draws)`: `none` models the empty `stats`
dictionary returned on empty input (`if not draws: return stats`); otherwise
all fields are filled as in the source. -/
def calculate_additional_stats (draws : List Draw) : Option DistStats :=
  if draws = [] then none
  else
    let sums : List Nat := draws.map (fun d => d.numbers.sum)
    let odd_counts : List Nat := draws.map oddCount
    let high_counts : List Nat := draws.map highCount
    let consecutive_counts : List Nat := draws.map consecutivePairs
    let ranges : List Nat := draws.map drawRange
    some
      { average_sum := (sums.sum : ℚ) / (sums.length : ℚ)
        min_sum := listMin sums
        max_sum := listMax sums
        odd_even_distribution := sortAscBy (fun p => p.1) (counterOf odd_counts)
        avg_odd_numbers := (odd_counts.sum : ℚ) / (odd_counts.length : ℚ)
        high_low_distribution := sortAscBy (fun p => p.1) (counterOf high_counts)
        avg_high_numbers := (high_counts.sum : ℚ) / (high_counts.length : ℚ)
        consecutive_pairs_distribution :=
          sortAscBy (fun p => p.1) (counterOf consecutive_counts)
        avg_consecutive_pairs :=
          (consecutive_counts.sum : ℚ) / (consecutive_counts.length : ℚ)
        avg_range := (ranges.sum : ℚ) / (ranges.length : ℚ)
        min_range := listMin ranges
        max_range := listMax ranges }

/- ### `find_hot_cold_numbers` -/

/-- One row of the dataframe after the `expected` and `deviation` columns
have been added. -/
structure DevRow where
  number : Nat
  frequency : Nat
  expected : ℚ
  deviation : ℚ
deriving Repr, DecidableEq

/-- The baseline `expected_freq = total_draws * 7 / 50`. -/
def expectedFreq (total_draws : Nat) : ℚ :=
  (total_draws : ℚ) * 7 / 50

/-- The copied dataframe with `expected` and `deviation` columns: rows are
added only for numbers present in the input frequency table. -/
def withDeviation (freq : List (Nat × Nat)) (total_draws : Nat) : List DevRow :=
  freq.map (fun p =>
    { number := p.1
      frequency := p.2
      expected := expectedFreq total_draws
      deviation :=
        ((p.2 : ℚ) - expectedFreq total_draws) / expectedFreq total_draws * 100 })

/-- The result dictionary of `find_hot_cold_numbers`. -/
structure HotCold where
  period : String
  hot : List DevRow
  cold : List DevRow
deriving Repr, DecidableEq

/-- Model of `find_hot_cold_numbers(freq_df, total_draws, period)`: add expected and
deviation columns to a copy of the table, then take the first 10 rows after
sorting by deviation descending (hot) and ascending (cold). -/
def find_hot_cold_numbers (freq : List (Nat × Nat)) (total_draws : Nat)
    (period : String) : HotCold :=
  let df := withDeviation freq total_draws
  { period := period
    hot := (sortDescBy (fun r => r.deviation) df).take 10
    cold := (sortAscBy (fun r => r.deviation) df).take 10 }

/- ### `find_patterns` -/

/-- One value of the `number_gaps` dictionary. -/
structure GapRecord where
  avg_gap : ℚ
  max_gap : Nat
  current_gap : Option Nat
deriving Repr, DecidableEq

/-- Model of `sorted(draws, key=lambda x: x["date"])`: Python's stable sort. -/
def sortByDate (draws : List Draw) : List Draw :=
  sortAscBy (fun d => d.date) draws

/-- The chronological indices `i` at which `num in draw["numbers"]` holds in
the date-sorted enumeration of the draws. -/
def appearanceIndices (num : Nat) (draws : List Draw) : List Nat :=
  ((sortByDate draws).enum.filter (fun p => decide (num ∈ p.2.numbers))).map
    (fun p => p.1)

/-- The `gaps` list accumulated by the scan: successive differences of the
appearance indices (`i - last_seen`, always nonnegative). -/
def gapsOf : List Nat → List Nat
  | a :: b :: rest => (b - a) :: gapsOf (b :: rest)
  | _ => []

/-- Model of `find_patterns(draws)["number_gaps"]`: for each number 1..50 with at
least one observed gap, the average and maximum gap and the current gap
(`len(draws) - last_seen`). -/
def find_patterns (draws : List Draw) : List (Nat × GapRecord) :=
  (List.range' 1 50).filterMap (fun num =>
    if gapsOf (appearanceIndices num draws) = [] then none
    else
      some (num,
        { avg_gap := ((gapsOf (appearanceIndices num draws)).sum : ℚ) /
            ((gapsOf (appearanceIndices num draws)).length : ℚ)
          max_gap := listMax (gapsOf (appearanceIndices num draws))
          current_gap := (appearanceIndices num draws).getLast?.map
            (fun i => draws.length - i) }))

/- ### Basic lemmas about the Counter model -/

theorem mem_firstDedup {α : Type} [DecidableEq α] {x : α} :
    ∀ {l : List α}, x ∈ firstDedup l ↔ x ∈ l
  | [] => by simp [firstDedup]
  | a :: l => by
    rw [firstDedup]
    by_cases hxa : x = a
    · subst hxa; simp
    · simp only [List.mem_cons, hxa, false_or, List.mem_filter]
      rw [mem_firstDedup (l := l)]
      simp [hxa]

theorem nodup_firstDedup {α : Type} [DecidableEq α] :
    ∀ (l : List α), (firstDedup l).Nodup
  | [] => by simp [firstDedup]
  | a :: l => by
    rw [firstDedup]
    refine List.nodup_cons.2 ⟨?_, (nodup_firstDedup l).filter _⟩
    intro hmem
    simp [List.mem_filter] at hmem

theorem firstDedup_perm_dedup {α : Type} [DecidableEq α] (l : List α) :
    List.Perm (firstDedup l) l.dedup := by
  refine (List.perm_ext_iff_of_nodup (nodup_firstDedup l) l.nodup_dedup).2 ?_
  intro x
  rw [mem_firstDedup, List.mem_dedup]

/-- Total of the multiplicities of a Counter = length of the underlying list. -/
theorem counterOf_sum {α : Type} [DecidableEq α] (l : List α) :
    ((counterOf l).map (fun p => p.2)).sum = l.length := by
  unfold counterOf
  rw [List.map_map]
  have hperm : List.Perm ((firstDedup l).map (fun k => l.count k))
      (l.dedup.map (fun k => l.count k)) :=
    (firstDedup_perm_dedup l).map _
  calc ((firstDedup l).map ((fun p : α × Nat => p.2) ∘ fun k => (k, l.count k))).sum
      = ((firstDedup l).map (fun k => l.count k)).sum := rfl
    _ = (l.dedup.map (fun k => l.count k)).sum := hperm.sum_eq
    _ = l.length := l.sum_map_count_dedup_eq_length

/-- The keys of a Counter are exactly the values occurring in the list. -/
theorem counterOf_keys_mem {α : Type} [DecidableEq α] (l : List α) (x : α) :
    x ∈ (counterOf l).map (fun p => p.1) ↔ x ∈ l := by
  unfold counterOf
  rw [List.map_map]
  have h : ((fun p : α × Nat => p.1) ∘ fun k => (k, l.count k)) = id := rfl
  rw [h, List.map_id, mem_firstDedup]

/- ### Sorting lemmas -/

theorem sortAscBy_perm {α β : Type} [LinearOrder β] (key : α → β) (l : List α) :
    List.Perm (sortAscBy key l) l :=
  List.perm_insertionSort _ l

theorem sortDescBy_perm {α β : Type} [LinearOrder β] (key : α → β) (l : List α) :
    List.Perm (sortDescBy key l) l :=
  (List.reverse_perm _).trans (sortAscBy_perm key l)

theorem analyze_frequency_perm (draws : List Draw) :
    List.Perm (analyze_frequency draws) (counterOf (mainNumbers draws)) :=
  sortDescBy_perm _ _

/- ### Summation helpers -/

theorem sum_map_const_of {α : Type} (l : List α) (f : α → Nat) (c : Nat)
    (h : ∀ x ∈ l, f x = c) : (l.map f).sum = l.length * c := by
  induction l with
  | nil => simp
  | cons a t ih =>
    have ha := h a (List.mem_cons_self a t)
    have ht := ih (fun x hx => h x (List.mem_cons_of_mem a hx))
    simp only [List.map_cons, List.sum_cons, ha, ht, List.length_cons]
    ring

theorem mainNumbers_length (draws : List Draw)
    (h : ∀ d ∈ draws, d.numbers.length = DRAW_SIZE) :
    (mainNumbers draws).length = draws.length * DRAW_SIZE := by
  unfold mainNumbers
  rw [List.length_flatMap]
  exact sum_map_const_of draws _ _ h



/-- C1: when every draw has exactly `DRAW_SIZE` numbers, the values of the
frequency table returned by `analyze_frequency` total
`len(draws) * DRAW_SIZE`, and its keys are exactly the numbers that appear
in at least one draw. -/
theorem frequency_total_and_support (draws : List Draw)
    (h : ∀ d ∈ draws, d.numbers.length = DRAW_SIZE) :
    ((analyze_frequency draws).map (fun p => p.2)).sum =
        draws.length * DRAW_SIZE ∧
      ∀ n : Nat, (n ∈ (analyze_frequency draws).map (fun p => p.1) ↔
        ∃ d ∈ draws, n ∈ d.numbers) := by
  constructor
  · have hperm := (analyze_frequency_perm draws).map (fun p : Nat × Nat => p.2)
    rw [hperm.sum_eq, counterOf_sum]
    exact mainNumbers_length draws h
  · intro n
    have hperm := (analyze_frequency_perm draws).map (fun p : Nat × Nat => p.1)
    rw [hperm.mem_iff, counterOf_keys_mem]
    unfold mainNumbers
    rw [List.mem_flatMap]

/-- Witness for C1 on a concrete two-draw set. -/
theorem frequency_total_and_support_witness :
    (∀ d ∈ ([⟨0, 2020, [1, 2, 3, 4, 5, 6, 7]⟩,
        ⟨1, 2021, [1, 2, 3, 4, 5, 48, 49]⟩] : List Draw),
        d.numbers.length = DRAW_SIZE) ∧
      (((analyze_frequency [⟨0, 2020, [1, 2, 3, 4, 5, 6, 7]⟩,
          ⟨1, 2021, [1, 2, 3, 4, 5, 48, 49]⟩]).map (fun p => p.2)).sum =
          ([⟨0, 2020, [1, 2, 3, 4, 5, 6, 7]⟩,
            ⟨1, 2021, [1, 2, 3, 4, 5, 48, 49]⟩] : List Draw).length * DRAW_SIZE ∧
        ∀ n : Nat, (n ∈ (analyze_frequency [⟨0, 2020, [1, 2, 3, 4, 5, 6, 7]⟩,
            ⟨1, 2021, [1, 2, 3, 4, 5, 48, 49]⟩]).map (fun p => p.1) ↔
          ∃ d ∈ ([⟨0, 2020, [1, 2, 3, 4, 5, 6, 7]⟩,
            ⟨1, 2021, [1, 2, 3, 4, 5, 48, 49]⟩] : List Draw), n ∈ d.numbers)) :=
  ⟨by decide, frequency_total_and_support _ (by decide)⟩
/- ### C2: combination tables -/

theorem length_combinationsList {α : Type} :
    ∀ (k : Nat) (l : List α),
      (combinationsList k l).length = Nat.choose l.length k
  | 0, l => by simp [combinationsList]
  | k + 1, [] => by simp [combinationsList]
  | k + 1, a :: l => by
    simp only [combinationsList, List.length_append, List.length_map,
      length_combinationsList k l, length_combinationsList (k + 1) l,
      List.length_cons, Nat.choose_succ_succ]

theorem mem_combinationsList {α : Type} :
    ∀ {k : Nat} {l t : List α},
      t ∈ combinationsList k l ↔ t.Sublist l ∧ t.length = k
  | 0, l, t => by
    simp only [combinationsList, List.mem_singleton]
    constructor
    · rintro rfl; exact ⟨List.nil_sublist l, rfl⟩
    · rintro ⟨_, ht⟩; exact List.length_eq_zero.1 ht
  | k + 1, [], t => by
    constructor
    · intro h
      simp [combinationsList] at h
    · rintro ⟨hsub, hlen⟩
      rw [List.sublist_nil.1 hsub] at hlen
      simp at hlen
  | k + 1, a :: l, t => by
    simp only [combinationsList, List.mem_append, List.mem_map]
    constructor
    · rintro (⟨s, hs, rfl⟩ | ht)
      · rcases mem_combinationsList.1 hs with ⟨hsub, hlen⟩
        exact ⟨List.cons_sublist_cons.2 hsub, by simp [hlen]⟩
      · rcases mem_combinationsList.1 ht with ⟨hsub, hlen⟩
        exact ⟨hsub.trans (List.sublist_cons_self a l), hlen⟩
    · rintro ⟨hsub, hlen⟩
      rcases List.sublist_cons_iff.1 hsub with h | ⟨r, rfl, hr⟩
      · exact Or.inr (mem_combinationsList.2 ⟨h, hlen⟩)
      · refine Or.inl ⟨r, mem_combinationsList.2 ⟨hr, ?_⟩, rfl⟩
        simpa using hlen

/-- C2: when every draw has `DRAW_SIZE` distinct numbers and
`1 ≤ k ≤ DRAW_SIZE`, the counts in the combination table total
`len(draws) * C(DRAW_SIZE, k)` and every key is a strictly ascending
(hence distinct) tuple of `k` numbers. -/
theorem combination_total_and_keys (draws : List Draw) (k : Nat)
    (hlen : ∀ d ∈ draws, d.numbers.length = DRAW_SIZE)
    (hnd : ∀ d ∈ draws, d.numbers.Nodup)
    (hk1 : 1 ≤ k) (hk7 : k ≤ DRAW_SIZE) :
    ((analyze_combinations draws k).map (fun p => p.2)).sum =
        draws.length * Nat.choose DRAW_SIZE k ∧
      ∀ t ∈ (analyze_combinations draws k).map (fun p => p.1),
        t.Sorted (· < ·) ∧ t.length = k := by
  have hperm : List.Perm (analyze_combinations draws k)
      (counterOf (draws.flatMap
        (fun d => combinationsList k (sortAscBy id d.numbers)))) :=
    sortDescBy_perm _ _
  constructor
  · have h2 := (hperm.map (fun p : List Nat × Nat => p.2)).sum_eq
    rw [h2, counterOf_sum]
    rw [List.length_flatMap]
    refine sum_map_const_of draws _ _ (fun d hd => ?_)
    show (combinationsList k (sortAscBy id d.numbers)).length = Nat.choose DRAW_SIZE k
    rw [length_combinationsList]
    unfold sortAscBy
    rw [List.length_insertionSort, hlen d hd]
  · intro t ht
    rw [(hperm.map (fun p : List Nat × Nat => p.1)).mem_iff, counterOf_keys_mem,
      List.mem_flatMap] at ht
    rcases ht with ⟨d, hd, htd⟩
    rcases mem_combinationsList.1 htd with ⟨hsub, hlent⟩
    refine ⟨?_, hlent⟩
    have hsorted : (sortAscBy id d.numbers).Sorted (· ≤ ·) :=
      List.sorted_insertionSort (keyLE id) d.numbers
    have hnodup : (sortAscBy id d.numbers).Nodup :=
      ((sortAscBy_perm id d.numbers).nodup_iff).2 (hnd d hd)
    exact List.Pairwise.sublist hsub (hsorted.lt_of_le hnodup)

/-- Witness for C2 on a concrete one-draw set with `k = 2`. -/
theorem combination_total_and_keys_witness :
    (∀ d ∈ ([⟨0, 2020, [7, 1, 2, 3, 4, 5, 6]⟩] : List Draw),
        d.numbers.length = DRAW_SIZE) ∧
      (∀ d ∈ ([⟨0, 2020, [7, 1, 2, 3, 4, 5, 6]⟩] : List Draw),
        d.numbers.Nodup) ∧
      1 ≤ 2 ∧ 2 ≤ DRAW_SIZE ∧
      (((analyze_combinations [⟨0, 2020, [7, 1, 2, 3, 4, 5, 6]⟩] 2).map
          (fun p => p.2)).sum =
        ([⟨0, 2020, [7, 1, 2, 3, 4, 5, 6]⟩] : List Draw).length *
          Nat.choose DRAW_SIZE 2 ∧
        ∀ t ∈ (analyze_combinations [⟨0, 2020, [7, 1, 2, 3, 4, 5, 6]⟩] 2).map
            (fun p => p.1),
          t.Sorted (· < ·) ∧ t.length = 2) :=
  ⟨by decide, by decide, by decide, by decide,
    combination_total_and_keys _ 2 (by decide) (by decide) (by decide) (by decide)⟩
/- ### C8: empty input -/

/-- C8: on an empty draw sequence `calculate_additional_stats` returns the
"no data" result (the empty `stats` dictionary, modelled as `none`) without
any division by zero, and `analyze_frequency` returns the empty table. -/
theorem empty_input_results :
    calculate_additional_stats [] = none ∧ analyze_frequency [] = [] :=
  ⟨rfl, rfl⟩

/- ### C6: distribution statistics for a concrete draw -/

/-- C6 counterexample: for the single draw {1,2,3,10,20,30,40} the odd
numbers are 1 and 3, so `calculate_additional_stats` computes an odd count
of 2, not 4 (with a single draw `avg_odd_numbers` equals that draw's odd
count). -/
theorem stats_example_odd_count_is_two :
    ((calculate_additional_stats [⟨0, 2020, [1, 2, 3, 10, 20, 30, 40]⟩]).map
        (fun s => s.avg_odd_numbers) = some 2) ∧ (2 : ℚ) ≠ 4 := by
  refine ⟨?_, by norm_num⟩
  norm_num [calculate_additional_stats, oddCount]

/-- C6 amended: for the single draw {1,2,3,10,20,30,40} with DRAW_SIZE 7 and
midpoint 25, `calculate_additional_stats` computes odd_count = 2 (numbers 1
and 3), high_count = 2 (30 and 40), consecutive_pairs = 2 (1-2 and 2-3),
sum = 106 and range = 39. -/
theorem stats_example_values :
    calculate_additional_stats [⟨0, 2020, [1, 2, 3, 10, 20, 30, 40]⟩] =
      some
        { average_sum := 106
          min_sum := 106
          max_sum := 106
          odd_even_distribution := [(2, 1)]
          avg_odd_numbers := 2
          high_low_distribution := [(2, 1)]
          avg_high_numbers := 2
          consecutive_pairs_distribution := [(2, 1)]
          avg_consecutive_pairs := 2
          avg_range := 39
          min_range := 39
          max_range := 39 } := by
  norm_num [calculate_additional_stats, oddCount, highCount, consecutivePairs,
    consecCount, drawRange, listMax, listMin, sortAscBy, counterOf, firstDedup,
    keyLE, DistStats.mk.injEq]

/- ### C5: out-of-range combination sizes -/

/-- C5 counterexample: `analyze_combinations` called with k = 0 does not
raise a usage error: it returns a table with the empty tuple counted once
per draw. -/
theorem combinations_k_zero_returns_table :
    analyze_combinations [⟨0, 2020, [1, 2, 3, 4, 5, 6, 7]⟩] 0 = [([], 1)] := by
  decide

/-- C5 amended: a tuple size outside [1, DRAW_SIZE] is not rejected and
nothing is raised: k = DRAW_SIZE + 1 silently yields the empty table, and
k = 0 yields a table whose counts total len(draws) (a single empty-tuple
key). -/
theorem combinations_out_of_range (draws : List Draw)
    (hlen : ∀ d ∈ draws, d.numbers.length = DRAW_SIZE) :
    analyze_combinations draws (DRAW_SIZE + 1) = [] ∧
      ((analyze_combinations draws 0).map (fun p => p.2)).sum = draws.length := by
  constructor
  · have hnil : (draws.flatMap
        (fun d => combinationsList (DRAW_SIZE + 1) (sortAscBy id d.numbers))) = [] := by
      rw [List.flatMap_eq_nil_iff]
      intro d hd
      refine List.length_eq_zero.1 ?_
      rw [length_combinationsList]
      unfold sortAscBy
      rw [List.length_insertionSort, hlen d hd]
      exact Nat.choose_eq_zero_of_lt (by norm_num [DRAW_SIZE])
    unfold analyze_combinations
    rw [hnil]
    rfl
  · have hperm : List.Perm (analyze_combinations draws 0)
        (counterOf (draws.flatMap
          (fun d => combinationsList 0 (sortAscBy id d.numbers)))) :=
      sortDescBy_perm _ _
    rw [(hperm.map (fun p : List Nat × Nat => p.2)).sum_eq, counterOf_sum,
      List.length_flatMap]
    have h1 : ((draws.map (List.length ∘ fun d =>
        combinationsList 0 (sortAscBy id d.numbers)))).sum = draws.length * 1 :=
      sum_map_const_of draws _ 1 (fun d hd => by
        show (combinationsList 0 (sortAscBy id d.numbers)).length = 1
        rw [length_combinationsList, Nat.choose_zero_right])
    rw [h1, Nat.mul_one]

/-- Witness for the amended C5 on a concrete one-draw set. -/
theorem combinations_out_of_range_witness :
    (∀ d ∈ ([⟨0, 2020, [1, 2, 3, 4, 5, 6, 7]⟩] : List Draw),
        d.numbers.length = DRAW_SIZE) ∧
      (analyze_combinations [⟨0, 2020, [1, 2, 3, 4, 5, 6, 7]⟩] (DRAW_SIZE + 1) = [] ∧
        ((analyze_combinations [⟨0, 2020, [1, 2, 3, 4, 5, 6, 7]⟩] 0).map
          (fun p => p.2)).sum =
          ([⟨0, 2020, [1, 2, 3, 4, 5, 6, 7]⟩] : List Draw).length) :=
  ⟨by decide, combinations_out_of_range _ (by decide)⟩
/- ### C3: deviations only for numbers present in the table -/

/-- C3 counterexample: with frequency table {1: 7} and one total draw, the
deviation rows of `find_hot_cold_numbers` cover only number 1; number 50
(never drawn) gets no deviation and appears in neither list, so absent pool
numbers are excluded rather than treated as frequency 0. -/
theorem hot_cold_excludes_absent :
    ((withDeviation [(1, 7)] 1).map (fun r => r.number) = [1]) ∧
      ((find_hot_cold_numbers [(1, 7)] 1 "all time").cold.map
          (fun r => r.number) = [1]) ∧
      (50 : Nat) ∉ (find_hot_cold_numbers [(1, 7)] 1 "all time").cold.map
        (fun r => r.number) := by
  decide

/-- C3 amended: `find_hot_cold_numbers` computes
`expected = total_draws * DRAW_SIZE / POOL_SIZE` and a deviation for exactly
the numbers present in the input frequency table; pool numbers absent from
the table get no row, so they can never appear in the hot or cold list. -/
theorem hot_cold_only_present_numbers (freq : List (Nat × Nat))
    (total_draws : Nat) (period : String) (h : 1 ≤ total_draws) :
    ((withDeviation freq total_draws).map (fun r => r.number) =
        freq.map (fun p => p.1)) ∧
      (∀ r ∈ withDeviation freq total_draws,
        r.expected = (total_draws : ℚ) * (DRAW_SIZE : ℚ) / (POOL_SIZE : ℚ) ∧
          r.deviation = ((r.frequency : ℚ) - r.expected) / r.expected * 100) ∧
      (∀ r ∈ (find_hot_cold_numbers freq total_draws period).hot,
        r.number ∈ freq.map (fun p => p.1)) ∧
      (∀ r ∈ (find_hot_cold_numbers freq total_draws period).cold,
        r.number ∈ freq.map (fun p => p.1)) := by
  have hexp : expectedFreq total_draws =
      (total_draws : ℚ) * (DRAW_SIZE : ℚ) / (POOL_SIZE : ℚ) := by
    norm_num [expectedFreq, DRAW_SIZE, POOL_SIZE]
  have hmem : ∀ r ∈ withDeviation freq total_draws,
      r.number ∈ freq.map (fun p => p.1) := by
    intro r hr
    rcases List.mem_map.1 hr with ⟨p, hp, rfl⟩
    exact List.mem_map.2 ⟨p, hp, rfl⟩
  refine ⟨?_, ?_, ?_, ?_⟩
  · unfold withDeviation
    rw [List.map_map]
    rfl
  · intro r hr
    rcases List.mem_map.1 hr with ⟨p, _, rfl⟩
    exact ⟨hexp, rfl⟩
  · intro r hr
    have hr' : r ∈ withDeviation freq total_draws := by
      have h1 := List.mem_of_mem_take hr
      exact (sortDescBy_perm (fun r : DevRow => r.deviation) _).mem_iff.1 h1
    exact hmem r hr'
  · intro r hr
    have hr' : r ∈ withDeviation freq total_draws := by
      have h1 := List.mem_of_mem_take hr
      exact (sortAscBy_perm (fun r : DevRow => r.deviation) _).mem_iff.1 h1
    exact hmem r hr'

/-- Witness for the amended C3 on a concrete one-entry table. -/
theorem hot_cold_only_present_numbers_witness :
    (1 : Nat) ≤ 1 ∧
      (((withDeviation [(1, 7)] 1).map (fun r => r.number) =
          ([(1, 7)] : List (Nat × Nat)).map (fun p => p.1)) ∧
        (∀ r ∈ withDeviation [(1, 7)] 1,
          r.expected = ((1 : Nat) : ℚ) * (DRAW_SIZE : ℚ) / (POOL_SIZE : ℚ) ∧
            r.deviation = ((r.frequency : ℚ) - r.expected) / r.expected * 100) ∧
        (∀ r ∈ (find_hot_cold_numbers [(1, 7)] 1 "all time").hot,
          r.number ∈ ([(1, 7)] : List (Nat × Nat)).map (fun p => p.1)) ∧
        (∀ r ∈ (find_hot_cold_numbers [(1, 7)] 1 "all time").cold,
          r.number ∈ ([(1, 7)] : List (Nat × Nat)).map (fun p => p.1))) :=
  ⟨by decide, hot_cold_only_present_numbers [(1, 7)] 1 "all time" (by decide)⟩

/- ### C4: tie-breaking -/

/-- C4 counterexample: for the single draw [1,2,3,4,5,6,7] all seven numbers
are tied with frequency 1, yet `analyze_frequency` lists them in descending
numeric order (7 first), so equal-count entries are not in ascending numeric
order: no value tie-break is enforced. -/
theorem frequency_ties_not_ascending :
    analyze_frequency [⟨0, 2020, [1, 2, 3, 4, 5, 6, 7]⟩] =
        [(7, 1), (6, 1), (5, 1), (4, 1), (3, 1), (2, 1), (1, 1)] ∧
      (1 : Nat) < 7 := by
  decide

/-- Rows produced by the ascending single-key sort are pairwise ordered by
that key. -/
theorem sortAscBy_pairwise {α β : Type} [LinearOrder β] (key : α → β)
    (l : List α) : (sortAscBy key l).Pairwise (fun a b => key a ≤ key b) :=
  (List.sorted_insertionSort (keyLE key) l).imp (fun h => h)

/-- Rows produced by the descending single-key sort are pairwise ordered by
that key, descending. -/
theorem sortDescBy_pairwise {α β : Type} [LinearOrder β] (key : α → β)
    (l : List α) : (sortDescBy key l).Pairwise (fun a b => key b ≤ key a) :=
  List.pairwise_reverse.2 (sortAscBy_pairwise key l)

/-- C4 amended: the frequency table is sorted by count non-increasing and
the hot/cold lists by deviation non-increasing/non-decreasing, with no
secondary ordering: equal-key rows are left in the (reversed, for descending
sorts) stable order of the single-key sort, not reordered by numeric
value. -/
theorem tables_sorted_by_single_key (draws : List Draw)
    (freq : List (Nat × Nat)) (total_draws : Nat) (period : String) :
    (analyze_frequency draws).Pairwise (fun a b => b.2 ≤ a.2) ∧
      ((find_hot_cold_numbers freq total_draws period).hot.Pairwise
        (fun a b => b.deviation ≤ a.deviation)) ∧
      ((find_hot_cold_numbers freq total_draws period).cold.Pairwise
        (fun a b => a.deviation ≤ b.deviation)) := by
  refine ⟨sortDescBy_pairwise (fun p : Nat × Nat => p.2) _, ?_, ?_⟩
  · exact (sortDescBy_pairwise (fun r : DevRow => r.deviation) _).sublist
      (List.take_sublist _ _) |>.imp (fun h => h)
  · exact (sortAscBy_pairwise (fun r : DevRow => r.deviation) _).sublist
      (List.take_sublist _ _) |>.imp (fun h => h)

/- ### C10: hot and cold coincide on small tables -/

/-- C10: when the frequency table has at most 10 entries (HOT_COLD_TOP_N),
`head(10)` returns the whole sorted table in both directions, so the hot and
cold lists contain exactly the same numbers. -/
theorem hot_cold_same_numbers (freq : List (Nat × Nat)) (total_draws : Nat)
    (period : String) (hlen : freq.length ≤ 10) (h : 1 ≤ total_draws) :
    ∀ n : Nat,
      (n ∈ (find_hot_cold_numbers freq total_draws period).hot.map
          (fun r => r.number) ↔
        n ∈ (find_hot_cold_numbers freq total_draws period).cold.map
          (fun r => r.number)) := by
  intro n
  have hdf : (withDeviation freq total_draws).length = freq.length := by
    unfold withDeviation
    rw [List.length_map]
  have hhot : (find_hot_cold_numbers freq total_draws period).hot =
      sortDescBy (fun r : DevRow => r.deviation) (withDeviation freq total_draws) := by
    refine List.take_of_length_le ?_
    unfold sortDescBy sortAscBy
    rw [List.length_reverse, List.length_insertionSort, hdf]
    exact hlen
  have hcold : (find_hot_cold_numbers freq total_draws period).cold =
      sortAscBy (fun r : DevRow => r.deviation) (withDeviation freq total_draws) := by
    refine List.take_of_length_le ?_
    unfold sortAscBy
    rw [List.length_insertionSort, hdf]
    exact hlen
  rw [hhot, hcold]
  constructor
  · intro hn
    rcases List.mem_map.1 hn with ⟨r, hr, rfl⟩
    exact List.mem_map.2 ⟨r, (sortAscBy_perm _ _).mem_iff.2
      ((sortDescBy_perm _ _).mem_iff.1 hr), rfl⟩
  · intro hn
    rcases List.mem_map.1 hn with ⟨r, hr, rfl⟩
    exact List.mem_map.2 ⟨r, (sortDescBy_perm _ _).mem_iff.2
      ((sortAscBy_perm _ _).mem_iff.1 hr), rfl⟩

/-- Witness for C10 on a concrete three-entry table. -/
theorem hot_cold_same_numbers_witness :
    ([(3, 5), (1, 2), (2, 9)] : List (Nat × Nat)).length ≤ 10 ∧ (1 : Nat) ≤ 4 ∧
      ∀ n : Nat,
        (n ∈ (find_hot_cold_numbers [(3, 5), (1, 2), (2, 9)] 4 "all time").hot.map
            (fun r => r.number) ↔
          n ∈ (find_hot_cold_numbers [(3, 5), (1, 2), (2, 9)] 4 "all time").cold.map
            (fun r => r.number)) :=
  ⟨by decide, by decide,
    hot_cold_same_numbers [(3, 5), (1, 2), (2, 9)] 4 "all time" (by decide) (by decide)⟩
/- ### C9: yearly partition -/

theorem sum_map_add_nat {κ : Type} (ks : List κ) (f g : κ → Nat) :
    (ks.map (fun y => f y + g y)).sum = (ks.map f).sum + (ks.map g).sum := by
  induction ks with
  | nil => simp
  | cons a t ih =>
    simp only [List.map_cons, List.sum_cons, ih]
    omega

theorem sum_indicator_of_nodup {κ : Type} [DecidableEq κ] (c : Nat) (a : κ) :
    ∀ (ks : List κ), ks.Nodup → a ∈ ks →
      (ks.map (fun y => if a = y then c else 0)).sum = c := by
  intro ks
  induction ks with
  | nil =>
    intro _ hmem
    simp at hmem
  | cons y t ih =>
    intro hnd hmem
    rcases List.mem_cons.1 hmem with rfl | hat
    · simp only [List.map_cons, List.sum_cons, if_pos rfl]
      have hnot : a ∉ t := (List.nodup_cons.1 hnd).1
      have hz : (t.map (fun z => if a = z then c else 0)).sum = 0 := by
        refine List.sum_eq_zero ?_
        intro x hx
        rcases List.mem_map.1 hx with ⟨z, hzt, rfl⟩
        have hne : a ≠ z := fun heq => hnot (heq ▸ hzt)
        simp [hne]
      rw [hz]
      simp
    · have hne : a ≠ y := by
        intro heq
        exact (List.nodup_cons.1 hnd).1 (heq ▸ hat)
      simp only [List.map_cons, List.sum_cons, if_neg hne, Nat.zero_add]
      exact ih (List.nodup_cons.1 hnd).2 hat

theorem sum_fiberwise_nat {α κ : Type} [DecidableEq κ] (f : α → κ)
    (g : α → Nat) :
    ∀ (l : List α) (ks : List κ), ks.Nodup → (∀ x ∈ l, f x ∈ ks) →
      (ks.map (fun y => ((l.filter (fun x => f x = y)).map g).sum)).sum =
        (l.map g).sum := by
  intro l
  induction l with
  | nil =>
    intro ks _ _
    simp
  | cons x t ih =>
    intro ks hnd hcov
    have hx : f x ∈ ks := hcov x (List.mem_cons_self x t)
    have hcovt : ∀ z ∈ t, f z ∈ ks := fun z hz =>
      hcov z (List.mem_cons_of_mem x hz)
    have hsplit : ∀ y ∈ ks,
        (((x :: t).filter (fun z => f z = y)).map g).sum =
          (if f x = y then g x else 0) +
            ((t.filter (fun z => f z = y)).map g).sum := by
      intro y _
      by_cases hxy : f x = y
      · rw [List.filter_cons_of_pos (by simp [hxy])]
        simp [hxy]
      · rw [List.filter_cons_of_neg (by simp [hxy])]
        simp [hxy]
    rw [List.map_congr_left hsplit, sum_map_add_nat,
      sum_indicator_of_nodup (g x) (f x) ks hnd hx, ih ks hnd hcovt]
    simp

theorem analyze_frequency_total (draws : List Draw) :
    ((analyze_frequency draws).map (fun p => p.2)).sum =
      (mainNumbers draws).length := by
  rw [((analyze_frequency_perm draws).map (fun p : Nat × Nat => p.2)).sum_eq,
    counterOf_sum]

/-- C9: `analyze_by_year` groups draws by the record's own `year` attribute,
its keys are exactly the years occurring in the draw set, and the per-year
frequency-table totals sum to the overall frequency-table total. -/
theorem yearly_partition (draws : List Draw)
    (h : ∀ d ∈ draws, d.numbers.length = DRAW_SIZE) :
    (∀ y : Int, y ∈ (analyze_by_year draws).map (fun p => p.1) ↔
        ∃ d ∈ draws, d.year = y) ∧
      ((analyze_by_year draws).map
          (fun p => (p.2.map (fun q => q.2)).sum)).sum =
        ((analyze_frequency draws).map (fun p => p.2)).sum := by
  constructor
  · intro y
    unfold analyze_by_year
    rw [List.map_map]
    have hc : ((fun p : Int × List (Nat × Nat) => p.1) ∘ fun y =>
        (y, analyze_frequency (draws.filter (fun d => d.year = y)))) = id := rfl
    rw [hc, List.map_id, mem_firstDedup, List.mem_map]
  · unfold analyze_by_year
    rw [List.map_map, analyze_frequency_total draws]
    have hstep : ∀ y ∈ firstDedup (draws.map (fun d => d.year)),
        ((fun p : Int × List (Nat × Nat) => (p.2.map (fun q => q.2)).sum) ∘
          fun y => (y, analyze_frequency (draws.filter (fun d => d.year = y)))) y =
          ((draws.filter (fun d => d.year = y)).map
            (fun d => d.numbers.length)).sum := by
      intro y _
      show ((analyze_frequency (draws.filter (fun d => d.year = y))).map
        (fun q => q.2)).sum = _
      rw [analyze_frequency_total]
      unfold mainNumbers
      rw [List.length_flatMap]
      rfl
    rw [List.map_congr_left hstep]
    unfold mainNumbers
    rw [List.length_flatMap]
    have hcov : ∀ d ∈ draws,
        (fun d : Draw => d.year) d ∈ firstDedup (draws.map (fun d => d.year)) := by
      intro d hd
      rw [mem_firstDedup]
      exact List.mem_map.2 ⟨d, hd, rfl⟩
    exact sum_fiberwise_nat (fun d : Draw => d.year) (fun d => d.numbers.length)
      draws (firstDedup (draws.map (fun d => d.year))) (nodup_firstDedup _) hcov

/-- Witness for C9 on a concrete three-draw, two-year set. -/
theorem yearly_partition_witness :
    (∀ d ∈ ([⟨0, 2020, [1, 2, 3, 4, 5, 6, 7]⟩, ⟨1, 2021, [1, 2, 3, 4, 5, 6, 8]⟩,
        ⟨2, 2020, [44, 45, 46, 47, 48, 49, 50]⟩] : List Draw),
        d.numbers.length = DRAW_SIZE) ∧
      ((∀ y : Int, y ∈ (analyze_by_year [⟨0, 2020, [1, 2, 3, 4, 5, 6, 7]⟩,
            ⟨1, 2021, [1, 2, 3, 4, 5, 6, 8]⟩,
            ⟨2, 2020, [44, 45, 46, 47, 48, 49, 50]⟩]).map (fun p => p.1) ↔
          ∃ d ∈ ([⟨0, 2020, [1, 2, 3, 4, 5, 6, 7]⟩, ⟨1, 2021, [1, 2, 3, 4, 5, 6, 8]⟩,
            ⟨2, 2020, [44, 45, 46, 47, 48, 49, 50]⟩] : List Draw), d.year = y) ∧
        ((analyze_by_year [⟨0, 2020, [1, 2, 3, 4, 5, 6, 7]⟩,
            ⟨1, 2021, [1, 2, 3, 4, 5, 6, 8]⟩,
            ⟨2, 2020, [44, 45, 46, 47, 48, 49, 50]⟩]).map
            (fun p => (p.2.map (fun q => q.2)).sum)).sum =
          ((analyze_frequency [⟨0, 2020, [1, 2, 3, 4, 5, 6, 7]⟩,
            ⟨1, 2021, [1, 2, 3, 4, 5, 6, 8]⟩,
            ⟨2, 2020, [44, 45, 46, 47, 48, 49, 50]⟩]).map (fun p => p.2)).sum) :=
  ⟨by decide, yearly_partition _ (by decide)⟩
/- ### C7: gap tracking -/

/-- C7: in a 10-draw set with strictly increasing dates where a pool number
appears exactly at chronological indices 2, 5 and 9, `find_patterns`
computes gaps [3, 4] for it and reports avg_gap = 3.5 (= 7/2), max_gap = 4
and current_gap = 10 - 9 = 1. -/
theorem gap_pattern_example
    (d0 d1 d2 d3 d4 d5 d6 d7 d8 d9 : Draw) (num : Nat)
    (hnum1 : 1 ≤ num) (hnum50 : num ≤ 50)
    (hd01 : d0.date < d1.date) (hd12 : d1.date < d2.date)
    (hd23 : d2.date < d3.date) (hd34 : d3.date < d4.date)
    (hd45 : d4.date < d5.date) (hd56 : d5.date < d6.date)
    (hd67 : d6.date < d7.date) (hd78 : d7.date < d8.date)
    (hd89 : d8.date < d9.date)
    (h0 : num ∉ d0.numbers) (h1 : num ∉ d1.numbers) (h2 : num ∈ d2.numbers)
    (h3 : num ∉ d3.numbers) (h4 : num ∉ d4.numbers) (h5 : num ∈ d5.numbers)
    (h6 : num ∉ d6.numbers) (h7 : num ∉ d7.numbers) (h8 : num ∉ d8.numbers)
    (h9 : num ∈ d9.numbers) :
    gapsOf (appearanceIndices num
        [d0, d1, d2, d3, d4, d5, d6, d7, d8, d9]) = [3, 4] ∧
      (num, { avg_gap := 7 / 2, max_gap := 4, current_gap := some 1 }) ∈
        find_patterns [d0, d1, d2, d3, d4, d5, d6, d7, d8, d9] := by
  have hpw : List.Pairwise (keyLE (fun d : Draw => d.date))
      [d0, d1, d2, d3, d4, d5, d6, d7, d8, d9] := by
    rw [← List.chain'_iff_pairwise]
    simp only [List.chain'_cons, List.chain'_singleton, keyLE, and_true]
    exact ⟨hd01.le, hd12.le, hd23.le, hd34.le, hd45.le, hd56.le, hd67.le,
      hd78.le, hd89.le⟩
  have hsort : sortByDate [d0, d1, d2, d3, d4, d5, d6, d7, d8, d9] =
      [d0, d1, d2, d3, d4, d5, d6, d7, d8, d9] :=
    List.Sorted.insertionSort_eq hpw
  have b0 : decide (num ∈ d0.numbers) = false := decide_eq_false h0
  have b1 : decide (num ∈ d1.numbers) = false := decide_eq_false h1
  have b2 : decide (num ∈ d2.numbers) = true := decide_eq_true h2
  have b3 : decide (num ∈ d3.numbers) = false := decide_eq_false h3
  have b4 : decide (num ∈ d4.numbers) = false := decide_eq_false h4
  have b5 : decide (num ∈ d5.numbers) = true := decide_eq_true h5
  have b6 : decide (num ∈ d6.numbers) = false := decide_eq_false h6
  have b7 : decide (num ∈ d7.numbers) = false := decide_eq_false h7
  have b8 : decide (num ∈ d8.numbers) = false := decide_eq_false h8
  have b9 : decide (num ∈ d9.numbers) = true := decide_eq_true h9
  have hidx : appearanceIndices num [d0, d1, d2, d3, d4, d5, d6, d7, d8, d9] =
      [2, 5, 9] := by
    unfold appearanceIndices
    rw [hsort]
    simp [List.enum, List.enumFrom, List.filter, b0, b1, b2, b3, b4, b5, b6,
      b7, b8, b9]
  refine ⟨by rw [hidx]; rfl, ?_⟩
  unfold find_patterns
  rw [List.mem_filterMap]
  refine ⟨num, ?_, ?_⟩
  · rw [List.mem_range']
    exact ⟨num - 1, by omega, by omega⟩
  · rw [hidx]
    rw [if_neg (by decide)]
    refine congrArg some (congrArg (Prod.mk num) ?_)
    have havg : ((gapsOf [2, 5, 9]).sum : ℚ) / ((gapsOf [2, 5, 9]).length : ℚ) =
        7 / 2 := by
      norm_num [gapsOf]
    rw [havg]
    rfl
/-- Witness for C7 on a concrete ten-draw set where number 1 appears at
chronological indices 2, 5 and 9. -/
theorem gap_pattern_example_witness :
    gapsOf (appearanceIndices 1
        [⟨0, 2020, [2, 3, 4, 5, 6, 7, 8]⟩, ⟨1, 2020, [2, 3, 4, 5, 6, 7, 8]⟩,
         ⟨2, 2020, [1, 3, 4, 5, 6, 7, 8]⟩, ⟨3, 2020, [2, 3, 4, 5, 6, 7, 8]⟩,
         ⟨4, 2020, [2, 3, 4, 5, 6, 7, 8]⟩, ⟨5, 2020, [1, 3, 4, 5, 6, 7, 8]⟩,
         ⟨6, 2020, [2, 3, 4, 5, 6, 7, 8]⟩, ⟨7, 2020, [2, 3, 4, 5, 6, 7, 8]⟩,
         ⟨8, 2020, [2, 3, 4, 5, 6, 7, 8]⟩, ⟨9, 2020, [1, 3, 4, 5, 6, 7, 8]⟩]) =
        [3, 4] ∧
      ((1 : Nat), { avg_gap := 7 / 2, max_gap := 4, current_gap := some 1 }) ∈
        find_patterns
          [⟨0, 2020, [2, 3, 4, 5, 6, 7, 8]⟩, ⟨1, 2020, [2, 3, 4, 5, 6, 7, 8]⟩,
           ⟨2, 2020, [1, 3, 4, 5, 6, 7, 8]⟩, ⟨3, 2020, [2, 3, 4, 5, 6, 7, 8]⟩,
           ⟨4, 2020, [2, 3, 4, 5, 6, 7, 8]⟩, ⟨5, 2020, [1, 3, 4, 5, 6, 7, 8]⟩,
           ⟨6, 2020, [2, 3, 4, 5, 6, 7, 8]⟩, ⟨7, 2020, [2, 3, 4, 5, 6, 7, 8]⟩,
           ⟨8, 2020, [2, 3, 4, 5, 6, 7, 8]⟩, ⟨9, 2020, [1, 3, 4, 5, 6, 7, 8]⟩] :=
  gap_pattern_example _ _ _ _ _ _ _ _ _ _ 1 (by decide) (by decide) (by decide)
    (by decide) (by decide) (by decide) (by decide) (by decide) (by decide)
    (by decide) (by decide) (by decide) (by decide) (by decide) (by decide)
    (by decide) (by decide) (by decide) (by decide) (by decide) (by decide)

end Lotto

